import Mathlib

/-!
Verification development for the tifs metadata-and-block transaction layer.

The definitions below are a shallow embedding of `src/fs/transaction.rs` and
`src/fs/tikv_fs.rs`.  Persistent state is the ordered key-value store; we model
it as a function from structured keys to optional structured values (the value
codecs of the missing `inode.rs` / `meta.rs` / `dir.rs` modules are modelled
from the spec as round-trip-pure, so records are kept structurally instead of
as byte strings).  Machine integers u64/u32 become `Nat`; i64/i32 quantities
that can go negative (offsets, whence, lock types) become `Int`.  `SystemTime`
values are threaded as an abstract `now : Nat` parameter.

The two transaction backends (`Txn` over tikv and `LocalTxn` over the in-memory
map) duplicate every operation; the only behavioural difference relevant here
is `save_inode`: the local backend also deletes data blocks when reclaiming an
inode.  We embed each operation once, parameterized by the backend selector
`rb : Bool` (`rb = false` is `Txn`, `rb = true` is `LocalTxn`), which is passed
to `save_inode`.
-/

namespace Tifs

/-- File kinds, from `fuser::FileType` (spec section 3). -/
inductive FileType where
  | regularFile
  | directory
  | symlink
  | namedPipe
  | socket
  | charDevice
  | blockDevice
deriving DecidableEq, Repr

/-- Modelled from the spec: the lock state stored in each inode
(`inode.rs` is not under `src/`): a lock type (an i32 fcntl constant) and a
set of owner ids. -/
structure LockState where
  owner_set : Finset Nat
  lk_type : Int
deriving DecidableEq

/-- Modelled from the spec: the inode record (`inode.rs` is not under `src/`).
Fields follow spec section 3 and the `FileAttr` literal in
`transaction.rs` (`make_inode`). -/
structure Inode where
  ino : Nat
  size : Nat
  blocks : Nat
  atime : Nat
  mtime : Nat
  ctime : Nat
  crtime : Nat
  kind : FileType
  perm : Nat
  nlink : Nat
  uid : Nat
  gid : Nat
  rdev : Nat
  flags : Nat
  next_fh : Nat
  opened_fh : Nat
  inline_data : Option (List Nat)
  lock_state : LockState
deriving DecidableEq

/-- Modelled from the spec: the singleton meta record (`meta.rs` is not under
`src/`): the fixed block size and the next inode number to allocate. -/
structure Meta where
  block_size : Nat
  inode_next : Nat
deriving DecidableEq, Repr

/-- Modelled from the spec: a file handle holds one byte cursor
(`file_handler.rs` is not under `src/`). -/
structure FileHandler where
  cursor : Nat
deriving DecidableEq, Repr

/-- Modelled from the spec: `FileHandler::default()` has cursor 0. -/
def FileHandler.default : FileHandler := { cursor := 0 }

/-- A directory entry `(ino, name, kind)` from `reply.rs::DirItem`. -/
structure DirItem where
  ino : Nat
  name : String
  typ : FileType
deriving DecidableEq, Repr

/-- The error kinds of `error.rs::FsError` that the embedded operations
produce (spec section 7). -/
inductive FsError where
  | inodeNotFound (ino : Nat)
  | fhNotFound (ino : Nat) (fh : Nat)
  | blockNotFound (ino : Nat) (blk : Nat)
  | fileNotFound (file : String)
  | fileExist (file : String)
  | dirNotEmpty (dir : String)
  | invalidLock
  | invalidOffset (ino : Nat) (offset : Int)
  | unknownWhence (whence : Int)
  | nameTooLong (file : String)
  | blockSizeConflict (stored expected : Nat)
  | codec
deriving DecidableEq, Repr

/-- Modelled from the spec: the key schema of `key.rs::ScopedKey`
(spec section 4.1).  The big-endian byte encoding is represented structurally;
what the code relies on is that a block-range scan yields blocks of one inode
in ascending block index, which `scan_blocks` below realizes. -/
inductive ScopedKey where
  | meta
  | inode (ino : Nat)
  | block (ino : Nat) (idx : Nat)
  | index (parent : Nat) (name : String)
  | handler (ino : Nat) (fh : Nat)
deriving DecidableEq, Repr

/-- Stored values.  Modelled from the spec: value codecs are round-trip-pure
(spec section 4.2), so each record kind is kept structurally; `.bytes` holds a
raw data block, `.dir` holds the encoded directory block. -/
inductive Value where
  | meta (m : Meta)
  | inode (i : Inode)
  | bytes (b : List Nat)
  | dir (d : List DirItem)
  | index (ino : Nat)
  | handler (h : FileHandler)
deriving DecidableEq

/-- The ordered key-value store (one tikv transaction view, or the local
backend's `entry_map`). -/
def Store : Type := ScopedKey → Option Value

/-- `put(key, value)`. -/
def Store.put (s : Store) (k : ScopedKey) (v : Value) : Store :=
  fun k' => if k' = k then some v else s k'

/-- `delete(key)`. -/
def Store.del (s : Store) (k : ScopedKey) : Store :=
  fun k' => if k' = k then none else s k'

/-- The empty store. -/
def Store.empty : Store := fun _ => none

/-- `key.rs::ROOT_INODE`; modelled from the spec: root directory is inode 1. -/
def ROOT_INODE : Nat := 1

/-- `libc::F_RDLCK` on Linux. -/
def F_RDLCK : Int := 0
/-- `libc::F_WRLCK` on Linux. -/
def F_WRLCK : Int := 1
/-- `libc::F_UNLCK` on Linux. -/
def F_UNLCK : Int := 2
/-- `libc::SEEK_SET`. -/
def SEEK_SET : Int := 0
/-- `libc::SEEK_CUR`. -/
def SEEK_CUR : Int := 1
/-- `libc::SEEK_END`. -/
def SEEK_END : Int := 2
/-- `libc::O_DIRECT` on Linux x86-64. -/
def O_DIRECT : Int := 16384
/-- `fuser::consts::FOPEN_DIRECT_IO`. -/
def FOPEN_DIRECT_IO : Nat := 1

/-- `TiFs::MAX_NAME_LEN = 1 << 8` (tikv_fs.rs:45). -/
def MAX_NAME_LEN : Nat := 1 <<< 8

/-- `Txn::INLINE_DATA_THRESHOLD_BASE = 1 << 4` (transaction.rs:37). -/
def INLINE_DATA_THRESHOLD_BASE : Nat := 1 <<< 4

/-- `Txn::inline_data_threshold` (transaction.rs:39-41). -/
def inline_data_threshold (bs : Nat) : Nat := bs / INLINE_DATA_THRESHOLD_BASE

/-- Modelled from the spec: `block.rs::empty_block` is a zero block of
`block_size` bytes. -/
def empty_block (bs : Nat) : List Nat := List.replicate bs 0

/-- Rust `Vec::resize(n, 0)`: truncate to `n` or zero-extend to `n`. -/
def resizeZero (l : List Nat) (n : Nat) : List Nat :=
  l.take n ++ List.replicate (n - l.length) 0

/-- Rust slice assignment `l[start..start + d.len()].copy_from_slice(d)`.
Faithful when `start + d.length ≤ l.length` (out of bounds panics in Rust). -/
def splice (l : List Nat) (start : Nat) (d : List Nat) : List Nat :=
  l.take start ++ d ++ l.drop (start + d.length)

/-- Modelled from the spec: `Inode::set_size(new, bs)` sets `size` and the
derived `blocks = ceil(size / block_size)` (spec sections 3 and 4.5;
`inode.rs` is not under `src/`). -/
def Inode.set_size (i : Inode) (sz bs : Nat) : Inode :=
  { i with size := sz, blocks := (sz + bs - 1) / bs }

/-- Modelled from the spec: `Meta::new(bs)` starts allocation at the root
inode (root is 1, created first; user inodes begin at 2). -/
def Meta.new (bs : Nat) : Meta := { block_size := bs, inode_next := ROOT_INODE }

/-- Modelled from the spec: `mode.rs::as_file_kind` reads the file kind from
the `S_IFMT` bits of the mode. -/
def as_file_kind (mode : Nat) : FileType :=
  let m := mode &&& 0o170000
  if m = 0o040000 then .directory
  else if m = 0o120000 then .symlink
  else if m = 0o010000 then .namedPipe
  else if m = 0o140000 then .socket
  else if m = 0o020000 then .charDevice
  else if m = 0o060000 then .blockDevice
  else .regularFile

/-- Modelled from the spec: `mode.rs::as_file_perm` keeps the permission
bits of the mode. -/
def as_file_perm (mode : Nat) : Nat := mode &&& 0o7777

/-- Modelled from the spec: `mode.rs::make_mode` combines the kind bits with
the permission bits. -/
def make_mode (kind : FileType) (perm : Nat) : Nat :=
  let k : Nat :=
    match kind with
    | .directory => 0o040000
    | .symlink => 0o120000
    | .namedPipe => 0o010000
    | .socket => 0o140000
    | .charDevice => 0o020000
    | .blockDevice => 0o060000
    | .regularFile => 0o100000
  k ||| (perm &&& 0o7777)

/-- Modelled from the spec: the directory codec is round-trip-pure; the
encoded byte length (used only to set the directory inode's size in
`save_dir`) is abstracted by the entry count. -/
def dir_encoded_len (d : List DirItem) : Nat := d.length

/-- `Txn::read_inode` / `LocalTxn::read_inode` (transaction.rs:216-222,
853-859): look up the inode key and decode. -/
def read_inode (store : Store) (ino : Nat) : Except FsError Inode :=
  match store (ScopedKey.inode ino) with
  | none => .error (.inodeNotFound ino)
  | some (Value.inode i) => .ok i
  | some _ => .error .codec

/-- `Txn::read_meta` / `LocalTxn::read_meta` (transaction.rs:244-247,
895-899). -/
def read_meta (store : Store) : Except FsError (Option Meta) :=
  match store ScopedKey.meta with
  | none => .ok none
  | some (Value.meta m) => .ok (some m)
  | some _ => .error .codec

/-- `Txn::save_meta` / `LocalTxn::save_meta` (transaction.rs:250-253,
902-906). -/
def save_meta (store : Store) (m : Meta) : Store :=
  store.put ScopedKey.meta (Value.meta m)

/-- `Txn::get_index` / `LocalTxn::get_index` (transaction.rs:190-200,
826-833). -/
def get_index (store : Store) (parent : Nat) (name : String) :
    Except FsError (Option Nat) :=
  match store (ScopedKey.index parent name) with
  | none => .ok none
  | some (Value.index ino) => .ok (some ino)
  | some _ => .error .codec

/-- `Txn::set_index` / `LocalTxn::set_index` (transaction.rs:203-207,
836-842). -/
def set_index (store : Store) (parent : Nat) (name : String) (ino : Nat) :
    Store :=
  store.put (ScopedKey.index parent name) (Value.index ino)

/-- `Txn::remove_index` / `LocalTxn::remove_index` (transaction.rs:210-213,
845-850). -/
def remove_index (store : Store) (parent : Nat) (name : String) : Store :=
  store.del (ScopedKey.index parent name)

/-- `Txn::read_fh` / `LocalTxn::read_fh` (transaction.rs:79-85, 715-721). -/
def read_fh (store : Store) (ino fh : Nat) : Except FsError FileHandler :=
  match store (ScopedKey.handler ino fh) with
  | none => .error (.fhNotFound ino fh)
  | some (Value.handler h) => .ok h
  | some _ => .error .codec

/-- `Txn::save_fh` / `LocalTxn::save_fh` (transaction.rs:88-92, 724-728). -/
def save_fh (store : Store) (ino fh : Nat) (h : FileHandler) : Store :=
  store.put (ScopedKey.handler ino fh) (Value.handler h)

/-- `Txn::read_dir` / `LocalTxn::read_dir` (transaction.rs:624-634,
1304-1314): decode block 0 of the directory inode. -/
def read_dir (store : Store) (ino : Nat) : Except FsError (List DirItem) :=
  match store (ScopedKey.block ino 0) with
  | none => .error (.blockNotFound ino 0)
  | some (Value.dir d) => .ok d
  | some _ => .error .codec

/-- The block-deletion loop of `LocalTxn::save_inode` (transaction.rs:872-877):
remove block keys `0 .. n`. -/
def delete_blocks (store : Store) (ino : Nat) : Nat → Store
  | 0 => store
  | n + 1 => (delete_blocks store ino n).del (ScopedKey.block ino n)

/-- `Txn::save_inode` (transaction.rs:224-235) when `rb = false`, and
`LocalTxn::save_inode` (transaction.rs:861-885) when `rb = true`.
With `nlink == 0 && opened_fh == 0` both delete the inode key; only the local
backend also deletes the data blocks `0 .. ceil(size / block_size)`. -/
def save_inode (rb : Bool) (bs : Nat) (store : Store) (inode : Inode) :
    Store :=
  if inode.nlink = 0 ∧ inode.opened_fh = 0 then
    let s := store.del (ScopedKey.inode inode.ino)
    if rb then delete_blocks s inode.ino ((inode.size + bs - 1) / bs) else s
  else
    store.put (ScopedKey.inode inode.ino) (Value.inode inode)

/-- Helper: the raw bytes stored at a block key, if any. -/
def get_block (store : Store) (ino idx : Nat) : Option (List Nat) :=
  match store (ScopedKey.block ino idx) with
  | some (Value.bytes b) => some b
  | _ => none

/-- `Txn::transfer_inline_data_to_block` / the `LocalTxn` copy
(transaction.rs:256-268, 909-922): pad the inline buffer to `block_size`,
store it as block 0, clear `inline_data`.  Only called with `inline_data`
present (the source `unwrap`s); absent inline data is treated as empty. -/
def transfer_inline_data_to_block (bs : Nat) (store : Store) (inode : Inode) :
    Inode × Store :=
  let data := resizeZero (inode.inline_data.getD []) bs
  let store := store.put (ScopedKey.block inode.ino 0) (Value.bytes data)
  ({ inode with inline_data := none }, store)

/-- `Txn::write_inline_data` / the `LocalTxn` copy (transaction.rs:270-304,
924-958): zero-extend the inline buffer to cover `start + data.len()`, splice
the bytes in, refresh times, set the size to the buffer length and save. -/
def write_inline_data (rb : Bool) (bs now : Nat) (store : Store)
    (inode : Inode) (start : Nat) (data : List Nat) : Nat × Store :=
  let size := data.length
  let inlined := inode.inline_data.getD []
  let inlined :=
    if start + size > inlined.length then
      inlined ++ List.replicate (start + size - inlined.length) 0
    else inlined
  let inlined := splice inlined start data
  let inode :=
    ({ inode with atime := now, mtime := now, ctime := now }).set_size
      inlined.length bs
  let inode := { inode with inline_data := some inlined }
  (size, save_inode rb bs store inode)

/-- `Txn::read_inline_data` / the `LocalTxn` copy (transaction.rs:306-335,
960-989): a `size`-byte buffer holding the inline bytes from `start` on,
zero-filled past their end; refreshes `atime` and saves the inode. -/
def read_inline_data (rb : Bool) (bs now : Nat) (store : Store)
    (inode : Inode) (start size : Nat) : List Nat × Store :=
  let inlined := inode.inline_data.getD []
  let copied := (inlined.drop start).take size
  let data := copied ++ List.replicate (size - copied.length) 0
  let inode := { inode with atime := now }
  (data, save_inode rb bs store inode)

/-- The ascending block scan
`scan(ScopedKey::block_range(ino, s..e), e - s)` (transaction.rs:360-365) /
`entry_map.range(...)` (transaction.rs:1024): the `(block_index, bytes)`
pairs present in the store for `block_index ∈ [s, e)`, in ascending order
(keys embed indices big-endian, so lexicographic order is numeric order). -/
def scan_blocks (store : Store) (ino s e : Nat) : List (Nat × List Nat) :=
  (List.range (e - s)).filterMap (fun j =>
    (get_block store ino (s + j)).map (fun b => (s + j, b)))

/-- The hole-filling `flat_map` of `read_data` (transaction.rs:367-381):
the `i`-th present pair `(key, value)` is preceded by one zero block for each
index in the Rust range `start_block + i .. key`. -/
def sparse_slots (bs s : Nat) (pairs : List (Nat × List Nat)) :
    List (List Nat) :=
  (pairs.enum.map (fun p =>
    List.replicate (p.2.1 - (s + p.1)) (empty_block bs) ++ [p.2.2])).flatten

/-- The assembling `fold` of `read_data` (transaction.rs:382-397): concatenate
the slots, trimming the first one at `start mod block_size`. -/
def assemble (bs start : Nat) : List (List Nat) → List Nat
  | [] => []
  | v :: rest => v.drop (start % bs) ++ rest.flatten

/-- `Txn::read_data` / `LocalTxn::read_data` (transaction.rs:337-403,
991-1061). -/
def read_data (rb : Bool) (bs now : Nat) (store : Store) (ino start : Nat)
    (chunk_size : Option Nat) : Except FsError (List Nat) × Store :=
  match read_inode store ino with
  | .error e => (.error e, store)
  | .ok attr =>
    if start ≥ attr.size then (.ok [], store)
    else
      let max_size := attr.size - start
      let size := min (chunk_size.getD max_size) max_size
      match attr.inline_data with
      | some _ =>
        let p := read_inline_data rb bs now store attr start size
        (.ok p.1, p.2)
      | none =>
        let target := start + size
        let start_block := start / bs
        let end_block := (target + bs - 1) / bs
        let pairs := scan_blocks store ino start_block end_block
        let data := assemble bs start (sparse_slots bs start_block pairs)
        let data := resizeZero data size
        let attr := { attr with atime := now }
        (.ok data, save_inode rb bs store attr)

/-- The chunking performed by the `while rest.len() != 0` loop of `write_data`
(transaction.rs:453-469): successive pieces of at most `block_size` bytes.
The fuel argument equals the list length, which suffices whenever
`block_size > 0` (with `block_size = 0` the source loop never terminates). -/
def chunks_aux : Nat → Nat → List Nat → List (List Nat)
  | 0, _, _ => []
  | _, _, [] => []
  | fuel + 1, bs, l =>
    l.take (min bs l.length) :: chunks_aux fuel bs (l.drop (min bs l.length))

/-- The block pieces written by the tail loop of `write_data`. -/
def chunks (bs : Nat) (l : List Nat) : List (List Nat) :=
  chunks_aux l.length bs l

/-- The body of the `while` loop of `write_data` (transaction.rs:453-469):
write each piece to the next block index; a short piece is spliced over the
existing block (or a zero block). -/
def write_blocks (bs ino : Nat) : Nat → Store → List (List Nat) → Store
  | _, store, [] => store
  | bi, store, cur :: rest =>
    let value :=
      if cur.length < bs then
        splice ((get_block store ino (bi + 1)).getD (empty_block bs)) 0 cur
      else cur
    write_blocks bs ino (bi + 1)
      (store.put (ScopedKey.block ino (bi + 1)) (Value.bytes value)) rest

/-- `Txn::write_data` / `LocalTxn::write_data` (transaction.rs:421-478,
1081-1157). -/
def write_data (rb : Bool) (bs now : Nat) (store : Store) (ino start : Nat)
    (data : List Nat) : Except FsError Nat × Store :=
  match read_inode store ino with
  | .error e => (.error e, store)
  | .ok inode =>
    let size := data.length
    let target := start + size
    let p :=
      if inode.inline_data.isSome ∧ target > bs then
        transfer_inline_data_to_block bs store inode
      else (inode, store)
    let inode := p.1
    let store := p.2
    if (inode.inline_data.isSome ∨ inode.size = 0) ∧ target ≤ bs then
      let q := write_inline_data rb bs now store inode start data
      (.ok q.1, q.2)
    else
      let block_index := start / bs
      let start_index := start % bs
      let first_block_size := bs - start_index
      let k := min first_block_size data.length
      let first_block := data.take k
      let rest := data.drop k
      let start_value := (get_block store ino block_index).getD (empty_block bs)
      let start_value := splice start_value start_index first_block
      let store :=
        store.put (ScopedKey.block ino block_index) (Value.bytes start_value)
      let store := write_blocks bs ino block_index store (chunks bs rest)
      let inode :=
        ({ inode with atime := now, mtime := now, ctime := now }).set_size
          (max inode.size target) bs
      (.ok size, save_inode rb bs store inode)

/-- `Txn::remove_inode` / `LocalTxn::remove_inode` (transaction.rs:238-241,
888-892). -/
def remove_inode (store : Store) (ino : Nat) : Store :=
  store.del (ScopedKey.inode ino)

/-- `Txn::save_dir` / `LocalTxn::save_dir` (transaction.rs:637-647,
1317-1328): set the directory inode's size to the encoded length, refresh
times, save it, then store the encoded entries as block 0. -/
def save_dir (rb : Bool) (bs now : Nat) (store : Store) (ino : Nat)
    (dir : List DirItem) : Except FsError Inode × Store :=
  match read_inode store ino with
  | .error e => (.error e, store)
  | .ok inode =>
    let inode := inode.set_size (dir_encoded_len dir) bs
    let inode := { inode with atime := now, mtime := now, ctime := now }
    let store := save_inode rb bs store inode
    let store := store.put (ScopedKey.block ino 0) (Value.dir dir)
    (.ok inode, store)

/-- `Txn::make_inode` / `LocalTxn::make_inode` (transaction.rs:122-187,
757-823).  The meta record is read (created if absent), `inode_next` is
captured and incremented, and the meta is saved *before* the duplicate-name
check.  The constant `blksize`/`padding` fields of the `FileAttr` literal are
omitted from the embedding; the `Into<Inode>` conversion (from the missing
`inode.rs`) is modelled from the spec as defaulting `next_fh`, `opened_fh`,
`inline_data` and an unlocked `lock_state`. -/
def make_inode (rb : Bool) (bs now : Nat) (store : Store) (parent : Nat)
    (name : String) (mode gid uid rdev : Nat) : Except FsError Inode × Store :=
  match read_meta store with
  | .error e => (.error e, store)
  | .ok opt_meta =>
    let meta := opt_meta.getD (Meta.new bs)
    let ino := meta.inode_next
    let meta := { meta with inode_next := meta.inode_next + 1 }
    let store := save_meta store meta
    let file_type := as_file_kind mode
    let finish : Store → Except FsError Inode × Store := fun store =>
      let inode : Inode :=
        { ino := ino, size := 0, blocks := 0
          atime := now, mtime := now, ctime := now, crtime := now
          kind := file_type, perm := as_file_perm mode, nlink := 1
          uid := uid, gid := gid, rdev := rdev, flags := 0
          next_fh := 0, opened_fh := 0, inline_data := none
          lock_state := { owner_set := ∅, lk_type := F_UNLCK } }
      (.ok inode, save_inode rb bs store inode)
    if parent ≥ ROOT_INODE then
      match get_index store parent name with
      | .error e => (.error e, store)
      | .ok (some _) => (.error (.fileExist name), store)
      | .ok none =>
        let store := set_index store parent name ino
        match read_dir store parent with
        | .error e => (.error e, store)
        | .ok dir =>
          let dir := dir ++ [{ ino := ino, name := name, typ := file_type }]
          match save_dir rb bs now store parent dir with
          | (.error e, s) => (.error e, s)
          | (.ok _, store) => finish store
    else finish store

/-- `Txn::mkdir` / `LocalTxn::mkdir` (transaction.rs:608-621, 1288-1301).
`inode.perm = mode as _` truncates the u32 mode to the u16 `perm` field. -/
def mkdir (rb : Bool) (bs now : Nat) (store : Store) (parent : Nat)
    (name : String) (mode gid uid : Nat) : Except FsError Inode × Store :=
  let dir_mode := make_mode FileType.directory mode
  match make_inode rb bs now store parent name dir_mode gid uid 0 with
  | (.error e, s) => (.error e, s)
  | (.ok inode, store) =>
    let inode := { inode with perm := mode &&& 0xFFFF }
    let store := save_inode rb bs store inode
    save_dir rb bs now store inode.ino []

/-- `Txn::unlink` / `LocalTxn::unlink` (transaction.rs:524-545,
1203-1225). -/
def unlink (rb : Bool) (bs now : Nat) (store : Store) (parent : Nat)
    (name : String) : Except FsError Unit × Store :=
  match get_index store parent name with
  | .error e => (.error e, store)
  | .ok none => (.error (.fileNotFound name), store)
  | .ok (some ino) =>
    let store := remove_index store parent name
    match read_dir store parent with
    | .error e => (.error e, store)
    | .ok parent_dir =>
      let new_parent_dir := parent_dir.filter (fun item => item.name ≠ name)
      match save_dir rb bs now store parent new_parent_dir with
      | (.error e, s) => (.error e, s)
      | (.ok _, store) =>
        match read_inode store ino with
        | .error e => (.error e, store)
        | .ok inode =>
          let inode := { inode with nlink := inode.nlink - 1, ctime := now }
          (.ok (), save_inode rb bs store inode)

/-- `Txn::rmdir` / `LocalTxn::rmdir` (transaction.rs:548-572, 1228-1252). -/
def rmdir (rb : Bool) (bs now : Nat) (store : Store) (parent : Nat)
    (name : String) : Except FsError Unit × Store :=
  match get_index store parent name with
  | .error e => (.error e, store)
  | .ok none => (.error (.fileNotFound name), store)
  | .ok (some ino) =>
    match read_dir store ino with
    | .error e => (.error e, store)
    | .ok target_dir =>
      if target_dir.length ≠ 0 then (.error (.dirNotEmpty name), store)
      else
        let store := remove_index store parent name
        let store := remove_inode store ino
        match read_dir store parent with
        | .error e => (.error e, store)
        | .ok parent_dir =>
          let new_parent_dir := parent_dir.filter (fun item => item.name ≠ name)
          match save_dir rb bs now store parent new_parent_dir with
          | (.error e, s) => (.error e, s)
          | (.ok _, store) => (.ok (), store)

/-- `Txn::link` / `LocalTxn::link` (transaction.rs:497-521, 1176-1200). -/
def link (rb : Bool) (bs now : Nat) (store : Store) (ino newparent : Nat)
    (newname : String) : Except FsError Inode × Store :=
  let removed : Except FsError Unit × Store :=
    match get_index store newparent newname with
    | .error e => (.error e, store)
    | .ok none => (.ok (), store)
    | .ok (some old_ino) =>
      match read_inode store old_ino with
      | .error e => (.error e, store)
      | .ok old_inode =>
        match old_inode.kind with
        | .directory => rmdir rb bs now store newparent newname
        | _ => unlink rb bs now store newparent newname
  match removed with
  | (.error e, s) => (.error e, s)
  | (.ok _, store) =>
    let store := set_index store newparent newname ino
    match read_inode store ino with
    | .error e => (.error e, store)
    | .ok inode =>
      match read_dir store newparent with
      | .error e => (.error e, store)
      | .ok dir =>
        let dir := dir ++ [{ ino := ino, name := newname, typ := inode.kind }]
        match save_dir rb bs now store newparent dir with
        | (.error e, s) => (.error e, s)
        | (.ok _, store) =>
          let inode := { inode with nlink := inode.nlink + 1, ctime := now }
          (.ok inode, save_inode rb bs store inode)

/-- `Txn::lookup` / `LocalTxn::lookup` (transaction.rs:574-581,
1254-1261). -/
def lookup_txn (store : Store) (parent : Nat) (name : String) :
    Except FsError Nat :=
  match get_index store parent name with
  | .error e => .error e
  | .ok none => .error (.fileNotFound name)
  | .ok (some ino) => .ok ino

/-- `Txn::write_link` / `LocalTxn::write_link` (transaction.rs:480-486,
1159-1165): clear inline data, reset the size, then write the target as
inline data. -/
def write_link (rb : Bool) (bs now : Nat) (store : Store) (inode : Inode)
    (data : List Nat) : Nat × Store :=
  let inode := { inode with inline_data := none }
  let inode := inode.set_size 0 bs
  write_inline_data rb bs now store inode 0 data

/-- `Txn::open` / `LocalTxn::open` (transaction.rs:57-66, 691-700): assign
`fh = next_fh`, store a fresh handle, bump `next_fh` and `opened_fh`,
save. -/
def open_txn (rb : Bool) (bs : Nat) (store : Store) (ino : Nat) :
    Except FsError Nat × Store :=
  match read_inode store ino with
  | .error e => (.error e, store)
  | .ok inode =>
    let fh := inode.next_fh
    let store := save_fh store ino fh FileHandler.default
    let inode :=
      { inode with next_fh := inode.next_fh + 1
                   opened_fh := inode.opened_fh + 1 }
    (.ok fh, save_inode rb bs store inode)

/-- `TiFs::process_txn_local` (tikv_fs.rs:129-146): on the memory backend the
commit and rollback calls are commented out, so the closure's result and its
store mutations are returned unchanged, on success *and on error*. -/
def process_txn_local {α : Type} (f : Store → Except FsError α × Store)
    (store : Store) : Except FsError α × Store :=
  f store

/-- `TiFs::check_file_name` (tikv_fs.rs:255-263): accept byte lengths up to
`MAX_NAME_LEN = 1 << 8`. -/
def check_file_name (name : String) : Except FsError Unit :=
  if name.utf8ByteSize ≤ MAX_NAME_LEN then .ok ()
  else .error (.nameTooLong name)

namespace TiFs

/-- `TiFs::lookup` (tikv_fs.rs:315-326): name pre-check, then one transaction
resolving the name and reading the inode.  (The memory backend's spin loop
never retries, so one `process_txn_local` round models it.) -/
def lookup (rb : Bool) (bs now : Nat) (store : Store) (parent : Nat)
    (name : String) : Except FsError Inode × Store :=
  match check_file_name name with
  | .error e => (.error e, store)
  | .ok _ =>
    process_txn_local (fun store =>
      match lookup_txn store parent name with
      | .error e => (.error e, store)
      | .ok ino =>
        match read_inode store ino with
        | .error e => (.error e, store)
        | .ok inode => (.ok inode, store)) store

/-- `TiFs::mkdir` (tikv_fs.rs:462-480): name pre-check, then the transaction
`mkdir`. -/
def mkdir (rb : Bool) (bs now : Nat) (store : Store) (parent : Nat)
    (name : String) (mode gid uid : Nat) : Except FsError Inode × Store :=
  match check_file_name name with
  | .error e => (.error e, store)
  | .ok _ =>
    process_txn_local
      (fun store => Tifs.mkdir rb bs now store parent name mode gid uid) store

/-- `TiFs::mknod` (tikv_fs.rs:489-507): name pre-check, then the transaction
`make_inode`. -/
def mknod (rb : Bool) (bs now : Nat) (store : Store) (parent : Nat)
    (name : String) (mode gid uid rdev : Nat) : Except FsError Inode × Store :=
  match check_file_name name with
  | .error e => (.error e, store)
  | .ok _ =>
    process_txn_local
      (fun store => make_inode rb bs now store parent name mode gid uid rdev)
      store

/-- `TiFs::open` (tikv_fs.rs:413-426): open a handle, then compute the reply
open flags.  The source condition is `self.direct_io || flags | O_DIRECT != 0`
— a bitwise or with the nonzero constant `O_DIRECT`, compared against 0.
Returns `(fh, open_flags)`. -/
def open_op (rb : Bool) (bs : Nat) (direct_io : Bool) (store : Store)
    (ino : Nat) (flags : Int) : Except FsError (Nat × Nat) × Store :=
  match process_txn_local (fun store => open_txn rb bs store ino) store with
  | (.error e, s) => (.error e, s)
  | (.ok fh, store) =>
    let open_flags := if direct_io ∨ Int.lor flags O_DIRECT ≠ 0
      then FOPEN_DIRECT_IO else 0
    (.ok (fh, open_flags), store)

/-- `TiFs::create` (tikv_fs.rs:514-533): name pre-check, `mknod` (which
checks again), then `open`.  Returns `(inode, fh, open_flags)`. -/
def create (rb : Bool) (bs now : Nat) (direct_io : Bool) (store : Store)
    (uid gid parent : Nat) (name : String) (mode : Nat) (flags : Int) :
    Except FsError (Inode × Nat × Nat) × Store :=
  match check_file_name name with
  | .error e => (.error e, store)
  | .ok _ =>
    match mknod rb bs now store parent name mode gid uid 0 with
    | (.error e, s) => (.error e, s)
    | (.ok inode, store) =>
      match open_op rb bs direct_io store inode.ino flags with
      | (.error e, s) => (.error e, s)
      | (.ok p, store) => (.ok (inode, p.1, p.2), store)

/-- `TiFs::rename` (tikv_fs.rs:588-608): both names are pre-checked, then one
transaction performs lookup, `link` under the new name and `unlink` of the old
name. -/
def rename (rb : Bool) (bs now : Nat) (store : Store) (parent : Nat)
    (raw_name : String) (newparent : Nat) (new_raw_name : String) :
    Except FsError Unit × Store :=
  match check_file_name raw_name with
  | .error e => (.error e, store)
  | .ok _ =>
    match check_file_name new_raw_name with
    | .error e => (.error e, store)
    | .ok _ =>
      process_txn_local (fun store =>
        match lookup_txn store parent raw_name with
        | .error e => (.error e, store)
        | .ok ino =>
          match Tifs.link rb bs now store ino newparent new_raw_name with
          | (.error e, s) => (.error e, s)
          | (.ok _, store) => Tifs.unlink rb bs now store parent raw_name)
        store

/-- `TiFs::symlink` (tikv_fs.rs:610-640): name pre-check, then one
transaction making a symlink inode and writing the target via
`write_link`. -/
def symlink (rb : Bool) (bs now : Nat) (store : Store) (gid uid parent : Nat)
    (name : String) (target : List Nat) : Except FsError Inode × Store :=
  match check_file_name name with
  | .error e => (.error e, store)
  | .ok _ =>
    process_txn_local (fun store =>
      match make_inode rb bs now store parent name
          (make_mode FileType.symlink 0o777) gid uid 0 with
      | (.error e, s) => (.error e, s)
      | (.ok attr, store) =>
        let p := write_link rb bs now store attr target
        (.ok attr, p.2)) store

/-- `TiFs::lseek` (tikv_fs.rs:535-560): compute the target cursor by whence,
reject unknown whence values and negative cursors, persist the handle. -/
def lseek (store : Store) (ino fh : Nat) (offset whence : Int) :
    Except FsError Int × Store :=
  match read_fh store ino fh with
  | .error e => (.error e, store)
  | .ok file_handler =>
    match read_inode store ino with
    | .error e => (.error e, store)
    | .ok inode =>
      let target : Except FsError Int :=
        if whence = SEEK_SET then .ok offset
        else if whence = SEEK_CUR then .ok ((file_handler.cursor : Int) + offset)
        else if whence = SEEK_END then .ok ((inode.size : Int) + offset)
        else .error (.unknownWhence whence)
      match target with
      | .error e => (.error e, store)
      | .ok target_cursor =>
        if target_cursor < 0 then
          (.error (.invalidOffset inode.ino target_cursor), store)
        else
          (.ok target_cursor,
           save_fh store ino fh { cursor := target_cursor.toNat })

/-- `TiFs::readdir` (tikv_fs.rs:383-411): a synthetic `..` entry pointing at
`ROOT_INODE` is pushed at offset 0 and a `.` entry at offsets at most 1, then
the stored entries are appended starting at `offset - min 2 offset`. -/
def readdir (store : Store) (ino : Nat) (offset : Int) :
    Except FsError (List DirItem) × Store :=
  let dir : List DirItem :=
    if offset = 0 then
      [{ ino := ROOT_INODE, name := "..", typ := FileType.directory }]
    else []
  let dir := dir ++
    (if offset ≤ 1 then
      [{ ino := ino, name := ".", typ := FileType.directory }]
     else [])
  let offset := offset - min 2 offset
  match read_dir store ino with
  | .error e => (.error e, store)
  | .ok directory => (.ok (dir ++ directory.drop offset.toNat), store)

/-- The transaction body of `TiFs::setlk` (tikv_fs.rs:757-824).  The result
`true` means the request completed in this transaction; `false` means it must
wait (`setlk` then enters the `setlkw` polling loop). -/
def setlk_txn (rb : Bool) (bs : Nat) (store : Store) (ino lock_owner : Nat)
    (typ : Int) (sleep : Bool) : Except FsError Bool × Store :=
  match read_inode store ino with
  | .error e => (.error e, store)
  | .ok inode =>
    if inode.kind = FileType.directory then (.error .invalidLock, store)
    else if typ = F_RDLCK then
      if inode.lock_state.lk_type = F_WRLCK then
        if sleep then (.ok false, store) else (.error .invalidLock, store)
      else
        let inode := { inode with lock_state :=
          { owner_set := insert lock_owner inode.lock_state.owner_set
            lk_type := F_RDLCK } }
        (.ok true, save_inode rb bs store inode)
    else if typ = F_WRLCK then
      if inode.lock_state.lk_type = F_RDLCK then
        if inode.lock_state.owner_set.card = 1 ∧
            lock_owner ∈ inode.lock_state.owner_set then
          let inode := { inode with lock_state :=
            { inode.lock_state with lk_type := F_WRLCK } }
          (.ok true, save_inode rb bs store inode)
        else if sleep then (.ok false, store)
        else (.error .invalidLock, store)
      else if inode.lock_state.lk_type = F_UNLCK then
        let inode := { inode with lock_state :=
          { owner_set := {lock_owner}, lk_type := F_WRLCK } }
        (.ok true, save_inode rb bs store inode)
      else if inode.lock_state.lk_type = F_WRLCK then
        if sleep then (.ok false, store) else (.error .invalidLock, store)
      else (.error .invalidLock, store)
    else if typ = F_UNLCK then
      let owner_set := inode.lock_state.owner_set.erase lock_owner
      let lk_type :=
        if owner_set = ∅ then F_UNLCK else inode.lock_state.lk_type
      let inode := { inode with lock_state :=
        { owner_set := owner_set, lk_type := lk_type } }
      (.ok true, save_inode rb bs store inode)
    else (.error .invalidLock, store)

/-- One iteration of the `TiFs::setlkw` polling loop (tikv_fs.rs:207-253).
`setlkw` repeats this transaction until it returns `true`. -/
def setlkw_txn (rb : Bool) (bs : Nat) (store : Store) (ino lock_owner : Nat)
    (typ : Int) : Except FsError Bool × Store :=
  match read_inode store ino with
  | .error e => (.error e, store)
  | .ok inode =>
    if typ = F_WRLCK then
      if inode.lock_state.owner_set.card > 1 then (.ok false, store)
      else if inode.lock_state.owner_set = ∅ then
        let inode := { inode with lock_state :=
          { owner_set := insert lock_owner inode.lock_state.owner_set
            lk_type := F_WRLCK } }
        (.ok true, save_inode rb bs store inode)
      else if lock_owner ∈ inode.lock_state.owner_set then
        let inode := { inode with lock_state :=
          { inode.lock_state with lk_type := F_WRLCK } }
        (.ok true, save_inode rb bs store inode)
      else (.error .invalidLock, store)
    else if typ = F_RDLCK then
      if inode.lock_state.lk_type = F_WRLCK then (.ok false, store)
      else
        let inode := { inode with lock_state :=
          { owner_set := insert lock_owner inode.lock_state.owner_set
            lk_type := F_RDLCK } }
        (.ok true, save_inode rb bs store inode)
    else (.error .invalidLock, store)

end TiFs

/-- A default inode used to build concrete test states: a regular file with
one link, no open handles, no inline data, unlocked. -/
def sample_inode : Inode :=
  { ino := 2, size := 0, blocks := 0
    atime := 0, mtime := 0, ctime := 0, crtime := 0
    kind := FileType.regularFile, perm := 0o644, nlink := 1
    uid := 0, gid := 0, rdev := 0, flags := 0
    next_fh := 0, opened_fh := 0, inline_data := none
    lock_state := { owner_set := ∅, lk_type := F_UNLCK } }

/-- Concrete state for claim C2: inode 2 has `nlink = 0`, `opened_fh = 0`,
size 4 (one block), and its block 0 is stored. -/
def c2_inode : Inode := { sample_inode with nlink := 0, size := 4, blocks := 1 }

/-- Store holding `c2_inode` and its data block. -/
def c2_store : Store :=
  (Store.empty.put (ScopedKey.inode 2) (Value.inode c2_inode)).put
    (ScopedKey.block 2 0) (Value.bytes (empty_block 4))

/-- Concrete state for claim C5: a plain regular-file inode to open. -/
def c5_store : Store :=
  Store.empty.put (ScopedKey.inode 2) (Value.inode sample_inode)

/-- A 256-byte name (256 ASCII `a`s) for claim C6. -/
def c6_name : String := String.mk (List.replicate 256 'a')

/-- Concrete state for claim C9: directory inode 7 with one stored entry. -/
def c9_store : Store :=
  (Store.empty.put (ScopedKey.inode 7)
      (Value.inode { sample_inode with ino := 7, kind := FileType.directory })).put
    (ScopedKey.block 7 0)
    (Value.dir [{ ino := 9, name := "f", typ := FileType.regularFile }])

/-- Concrete state for claim C10: meta present with `inode_next = 5`, a
parent directory (inode 1) with an entry `"f"` already indexed. -/
def c10_store : Store :=
  (((Store.empty.put ScopedKey.meta
        (Value.meta { block_size := 4, inode_next := 5 })).put
      (ScopedKey.inode 1)
      (Value.inode { sample_inode with ino := 1, kind := FileType.directory })).put
    (ScopedKey.block 1 0)
    (Value.dir [{ ino := 2, name := "f", typ := FileType.regularFile }])).put
    (ScopedKey.index 1 "f") (Value.index 2)

theorem Store.get_put (s : Store) (k : ScopedKey) (v : Value) (k' : ScopedKey) :
    (s.put k v) k' = if k' = k then some v else s k' := rfl

theorem Store.get_del (s : Store) (k k' : ScopedKey) :
    (s.del k) k' = if k' = k then none else s k' := rfl

theorem delete_blocks_block_lt (s : Store) (ino : Nat) (n j : Nat)
    (h : j < n) : (delete_blocks s ino n) (ScopedKey.block ino j) = none := by
  induction n with
  | zero => omega
  | succ m ih =>
    simp only [delete_blocks, Store.get_del]
    by_cases hj : j = m
    · simp [hj]
    · have hjm : j < m := by omega
      simp [ih hjm, hj]

theorem delete_blocks_other (s : Store) (ino n : Nat) (k : ScopedKey)
    (h : ∀ j, j < n → k ≠ ScopedKey.block ino j) :
    (delete_blocks s ino n) k = s k := by
  induction n with
  | zero => rfl
  | succ m ih =>
    simp only [delete_blocks, Store.get_del]
    have hk : k ≠ ScopedKey.block ino m := h m (by omega)
    simp only [if_neg hk]
    exact ih (fun j hj => h j (by omega))

/-- Claim C2, counterexample: on the distributed backend, `Txn::save_inode`
(transaction.rs:224-235) of an inode with `nlink = 0` and `opened_fh = 0`
deletes only the inode key; the inode's data block 0 is still present
afterwards, so "deletes every data block key of that inode within the same
transaction" fails. -/
theorem C2_counterexample :
    c2_inode.nlink = 0 ∧ c2_inode.opened_fh = 0 ∧
    (save_inode false 4 c2_store c2_inode) (ScopedKey.inode 2) = none ∧
    (save_inode false 4 c2_store c2_inode) (ScopedKey.block 2 0) =
      some (Value.bytes (empty_block 4)) := by
  refine ⟨rfl, rfl, ?_, ?_⟩ <;> decide

/-- Claim C2, amended: when an inode with `nlink = 0` and `opened_fh = 0` is
saved on the *memory* backend, `LocalTxn::save_inode` deletes the inode key
and every block key with index below `ceil(size / block_size)` in the same
step; the distributed backend deletes only the inode key. -/
theorem C2_local_save_inode_reclaims (bs : Nat) (store : Store) (inode : Inode)
    (hn : inode.nlink = 0) (hf : inode.opened_fh = 0) :
    (save_inode true bs store inode) (ScopedKey.inode inode.ino) = none ∧
    ∀ j, j < (inode.size + bs - 1) / bs →
      (save_inode true bs store inode) (ScopedKey.block inode.ino j) = none := by
  have hcond : inode.nlink = 0 ∧ inode.opened_fh = 0 := ⟨hn, hf⟩
  constructor
  · simp only [save_inode, if_pos hcond, if_pos trivial]
    rw [delete_blocks_other]
    · simp [Store.get_del]
    · intro j _ hk
      exact ScopedKey.noConfusion hk
  · intro j hj
    simp only [save_inode, if_pos hcond, if_pos trivial]
    exact delete_blocks_block_lt _ _ _ _ hj

/-- Claim C2, witness for the amended theorem: reclaiming `c2_inode` (size 4,
block size 4) on the memory backend removes the inode key and block 0. -/
theorem C2_witness :
    c2_inode.nlink = 0 ∧ c2_inode.opened_fh = 0 ∧
    (save_inode true 4 c2_store c2_inode) (ScopedKey.inode 2) = none ∧
    (save_inode true 4 c2_store c2_inode) (ScopedKey.block 2 0) = none := by
  have h := C2_local_save_inode_reclaims 4 c2_store c2_inode rfl rfl
  exact ⟨rfl, rfl, h.1, h.2 0 (by decide)⟩

/-- Claim C5: `TiFs::open` (tikv_fs.rs:413-426) computes
`self.direct_io || flags | O_DIRECT != 0`, a bitwise or with the nonzero
constant `O_DIRECT`, so the reply carries `FOPEN_DIRECT_IO` even when the
`direct_io` mount option is off and the caller's flags are 0 — the claim says
the returned open flags should be zero in that case. -/
theorem C5_direct_io_always_set :
    (TiFs.open_op true 4 false c5_store 2 0).1 = .ok (0, FOPEN_DIRECT_IO) ∧
    FOPEN_DIRECT_IO ≠ 0 := by
  exact ⟨rfl, by decide⟩

set_option maxRecDepth 4096 in
/-- Claim C6, counterexample: `TiFs::check_file_name` (tikv_fs.rs:255-263)
accepts a 256-byte name (`MAX_NAME_LEN = 1 << 8 = 256` and the test is
`len <= MAX_NAME_LEN`), although the claim says names longer than 255 bytes
are rejected. -/
theorem C6_counterexample :
    check_file_name c6_name = .ok () ∧ c6_name.utf8ByteSize = 256 ∧
    255 < c6_name.utf8ByteSize := by
  have h : c6_name.utf8ByteSize = 256 := by rfl
  refine ⟨?_, h, by omega⟩
  simp [check_file_name, h, MAX_NAME_LEN]

/-- A 257-byte name, above the code's threshold. -/
def c6_long : String := String.mk (List.replicate 257 'a')

/-- Claim C6, amended: the pre-check threshold is `MAX_NAME_LEN = 256` bytes,
not 255: `check_file_name` accepts exactly the names of at most 256 bytes,
and each name-taking operation (lookup, mkdir, mknod, create, rename,
symlink) returns `NameTooLong` for a longer name before touching the store
(the store is returned unchanged). -/
theorem C6_name_threshold (name : String) :
    (check_file_name name = .ok () ↔ name.utf8ByteSize ≤ MAX_NAME_LEN) ∧
    (MAX_NAME_LEN < name.utf8ByteSize →
      ∀ (rb : Bool) (bs now : Nat) (dio : Bool) (store : Store)
        (parent mode gid uid rdev newparent : Nat) (flags : Int)
        (target : List Nat) (other : String),
        TiFs.lookup rb bs now store parent name =
          (.error (.nameTooLong name), store) ∧
        TiFs.mkdir rb bs now store parent name mode gid uid =
          (.error (.nameTooLong name), store) ∧
        TiFs.mknod rb bs now store parent name mode gid uid rdev =
          (.error (.nameTooLong name), store) ∧
        TiFs.create rb bs now dio store uid gid parent name mode flags =
          (.error (.nameTooLong name), store) ∧
        TiFs.rename rb bs now store parent name newparent other =
          (.error (.nameTooLong name), store) ∧
        (check_file_name other = .ok () →
          TiFs.rename rb bs now store parent other newparent name =
            (.error (.nameTooLong name), store)) ∧
        TiFs.symlink rb bs now store gid uid parent name target =
          (.error (.nameTooLong name), store)) := by
  constructor
  · constructor
    · intro h
      by_contra hgt
      simp [check_file_name, if_neg hgt] at h
    · intro h
      simp [check_file_name, if_pos h]
  · intro hlong rb bs now dio store parent mode gid uid rdev newparent flags
      target other
    have hchk : check_file_name name = .error (.nameTooLong name) := by
      have : ¬ name.utf8ByteSize ≤ MAX_NAME_LEN := by omega
      simp [check_file_name, if_neg this]
    refine ⟨?_, ?_, ?_, ?_, ?_, ?_, ?_⟩
    · simp [TiFs.lookup, hchk]
    · simp [TiFs.mkdir, hchk]
    · simp [TiFs.mknod, hchk]
    · simp [TiFs.create, hchk]
    · simp [TiFs.rename, hchk]
    · intro hother
      simp [TiFs.rename, hother, hchk]
    · simp [TiFs.symlink, hchk]

set_option maxRecDepth 8192 in
/-- Claim C6, witness: the 257-byte name is rejected by `mknod` with the
store untouched, and a short name passes the pre-check. -/
theorem C6_witness :
    TiFs.mknod true 4 0 Store.empty 1 c6_long 0 0 0 0 =
      (.error (.nameTooLong c6_long), Store.empty) ∧
    check_file_name "f" = .ok () := by
  have hlong : MAX_NAME_LEN < c6_long.utf8ByteSize := by
    have h : c6_long.utf8ByteSize = 257 := by rfl
    rw [h]; decide
  refine ⟨((C6_name_threshold c6_long).2 hlong true 4 0 false Store.empty 1 0 0
    0 0 0 0 [] "").2.2.1, ?_⟩
  exact ((C6_name_threshold "f").1).mpr (by decide)

/-- Claim C9: `TiFs::readdir` (tikv_fs.rs:383-411) at offset 0 always pushes
the synthetic `..` entry with inode number `ROOT_INODE = 1`, whatever
directory is being listed and whatever its real parent is, followed by `.`
and the stored entries. -/
theorem C9_readdir_root_dotdot (store : Store) (ino : Nat) (d : List DirItem)
    (h : read_dir store ino = .ok d) :
    (TiFs.readdir store ino 0).1 =
      .ok ({ ino := ROOT_INODE, name := "..", typ := FileType.directory } ::
        { ino := ino, name := ".", typ := FileType.directory } :: d) := by
  simp [TiFs.readdir, h]

/-- Claim C9, witness: listing directory 7 (whose stored parent is nowhere
`1`) at offset 0 reports `..` with inode 1. -/
theorem C9_witness :
    (TiFs.readdir c9_store 7 0).1 =
      .ok ({ ino := ROOT_INODE, name := "..", typ := FileType.directory } ::
        { ino := 7, name := ".", typ := FileType.directory } ::
        [{ ino := 9, name := "f", typ := FileType.regularFile }]) :=
  C9_readdir_root_dotdot c9_store 7 _ rfl

/-- Claim C10: `LocalTxn::make_inode` (transaction.rs:757-823) saves the meta
record with `inode_next` already incremented *before* the duplicate-name
check, and `TiFs::process_txn_local` (tikv_fs.rs:129-146) neither commits nor
rolls back on the memory backend; so a `make_inode` that fails with
`FileExist` returns the error together with the store in which
`meta.inode_next` is permanently advanced by one. -/
theorem C10_make_inode_meta_advanced (rb : Bool) (bs now : Nat) (store : Store)
    (parent : Nat) (name : String) (mode gid uid rdev : Nat) (m : Meta)
    (child : Nat) (hm : store ScopedKey.meta = some (Value.meta m))
    (hp : ROOT_INODE ≤ parent)
    (hi : store (ScopedKey.index parent name) = some (Value.index child)) :
    process_txn_local
        (fun s => make_inode rb bs now s parent name mode gid uid rdev)
        store =
      (.error (.fileExist name),
        save_meta store { m with inode_next := m.inode_next + 1 }) ∧
    (save_meta store { m with inode_next := m.inode_next + 1 })
        ScopedKey.meta =
      some (Value.meta { m with inode_next := m.inode_next + 1 }) := by
  have hidx :
      (save_meta store { m with inode_next := m.inode_next + 1 })
        (ScopedKey.index parent name) = some (Value.index child) := by
    simp [save_meta, Store.get_put, hi]
  constructor
  · simp [process_txn_local, make_inode, read_meta, hm, if_pos hp, get_index,
      hidx]
  · simp [save_meta, Store.get_put]

/-- Claim C10, witness: on the concrete store with `inode_next = 5` and an
existing entry `"f"` under inode 1, `make_inode` fails with `FileExist` and
the returned store's meta has `inode_next = 6`. -/
theorem C10_witness :
    (process_txn_local
        (fun s => make_inode true 4 0 s 1 "f" 0o100644 0 0 0) c10_store).1 =
      .error (.fileExist "f") ∧
    (process_txn_local
        (fun s => make_inode true 4 0 s 1 "f" 0o100644 0 0 0) c10_store).2
        ScopedKey.meta =
      some (Value.meta { block_size := 4, inode_next := 6 }) := by
  have h := C10_make_inode_meta_advanced true 4 0 c10_store 1 "f" 0o100644 0 0
    0 { block_size := 4, inode_next := 5 } 2 rfl (by decide) rfl
  exact ⟨by rw [h.1], by rw [h.1]; exact h.2⟩

/-- Concrete state for claim C4: inode 2 holds an exclusive lock owned by
owner 77 only. -/
def c4_inode : Inode :=
  { sample_inode with
    lock_state := { owner_set := {77}, lk_type := F_WRLCK } }

/-- Store holding `c4_inode`. -/
def c4_store : Store :=
  Store.empty.put (ScopedKey.inode 2) (Value.inode c4_inode)

/-- Claim C4, counterexample: inode 2 is exclusively locked with owner set
`{77}`; a shared (`F_RDLCK`) request by the same owner 77 does not downgrade
— the non-sleeping `setlk` transaction (tikv_fs.rs:764-778) reports
`InvalidLock` and leaves the store unchanged. -/
theorem C4_counterexample :
    c4_inode.lock_state.lk_type = F_WRLCK ∧
    c4_inode.lock_state.owner_set = {77} ∧
    TiFs.setlk_txn true 4 c4_store 2 77 F_RDLCK false =
      (.error .invalidLock, c4_store) := by
  exact ⟨rfl, rfl, rfl⟩

/-- Claim C4, amended: a shared request while an exclusive lock is held — by
*any* owner, including the exclusive holder itself — is treated as a
conflict: with `sleep = false` the `setlk` transaction fails with
`InvalidLock`; with `sleep = true` it reports not-acquired, and a `setlkw`
poll iteration also reports not-acquired, so the wait loop does not complete
while the exclusive lock persists.  No downgrade to a shared lock happens. -/
theorem C4_exclusive_shared_conflict (rb : Bool) (bs : Nat) (store : Store)
    (ino o : Nat) (inode : Inode) (h : read_inode store ino = .ok inode)
    (hk : inode.kind ≠ FileType.directory)
    (hl : inode.lock_state.lk_type = F_WRLCK)
    (ho : inode.lock_state.owner_set = {o}) :
    TiFs.setlk_txn rb bs store ino o F_RDLCK false =
      (.error .invalidLock, store) ∧
    TiFs.setlk_txn rb bs store ino o F_RDLCK true = (.ok false, store) ∧
    TiFs.setlkw_txn rb bs store ino o F_RDLCK = (.ok false, store) := by
  refine ⟨?_, ?_, ?_⟩
  · simp [TiFs.setlk_txn, h, if_neg hk, hl]
  · simp [TiFs.setlk_txn, h, if_neg hk, hl]
  · simp [TiFs.setlkw_txn, h, hl, F_RDLCK, F_WRLCK]

/-- Claim C4, witness: at the concrete exclusively-locked inode, the sleeping
shared request by the lock's own owner is left pending by both the `setlk`
transaction and a `setlkw` poll iteration. -/
theorem C4_witness :
    TiFs.setlk_txn true 4 c4_store 2 77 F_RDLCK true = (.ok false, c4_store) ∧
    TiFs.setlkw_txn true 4 c4_store 2 77 F_RDLCK = (.ok false, c4_store) := by
  have h := C4_exclusive_shared_conflict true 4 c4_store 2 77 c4_inode rfl
    (by decide) rfl rfl
  exact ⟨h.2.1, h.2.2⟩

/-- Concrete state for claim C8: inode 2 with size 10, one handle `(2, 1)`
whose cursor is 3. -/
def c8_store : Store :=
  (Store.empty.put (ScopedKey.inode 2)
      (Value.inode { sample_inode with size := 10, opened_fh := 1 })).put
    (ScopedKey.handler 2 1) (Value.handler { cursor := 3 })

/-- Claim C8: `TiFs::lseek` (tikv_fs.rs:535-560) computes the target cursor
as `offset` for `SEEK_SET`, `cursor + offset` for `SEEK_CUR` and
`size + offset` for `SEEK_END`; any other whence fails with `UnknownWhence`,
a negative target fails with `InvalidOffset`, and on success the cursor is
persisted in the file handle via `save_fh`. -/
theorem C8_lseek_spec (store : Store) (ino fh : Nat) (offset whence : Int)
    (h : FileHandler) (inode : Inode) (hf : read_fh store ino fh = .ok h)
    (hi : read_inode store ino = .ok inode) :
    (whence = SEEK_SET → TiFs.lseek store ino fh offset whence =
      (if offset < 0 then (.error (.invalidOffset inode.ino offset), store)
       else (.ok offset, save_fh store ino fh { cursor := offset.toNat }))) ∧
    (whence = SEEK_CUR → TiFs.lseek store ino fh offset whence =
      (if (h.cursor : Int) + offset < 0 then
        (.error (.invalidOffset inode.ino ((h.cursor : Int) + offset)), store)
       else
        (.ok ((h.cursor : Int) + offset),
         save_fh store ino fh { cursor := ((h.cursor : Int) + offset).toNat }))) ∧
    (whence = SEEK_END → TiFs.lseek store ino fh offset whence =
      (if (inode.size : Int) + offset < 0 then
        (.error (.invalidOffset inode.ino ((inode.size : Int) + offset)), store)
       else
        (.ok ((inode.size : Int) + offset),
         save_fh store ino fh
           { cursor := ((inode.size : Int) + offset).toNat }))) ∧
    (whence ≠ SEEK_SET → whence ≠ SEEK_CUR → whence ≠ SEEK_END →
      TiFs.lseek store ino fh offset whence =
        (.error (.unknownWhence whence), store)) ∧
    (∀ c : FileHandler,
      (save_fh store ino fh c) (ScopedKey.handler ino fh) =
        some (Value.handler c)) := by
  refine ⟨?_, ?_, ?_, ?_, ?_⟩
  · intro hw
    subst hw
    simp [TiFs.lseek, hf, hi, SEEK_SET]
  · intro hw
    subst hw
    simp [TiFs.lseek, hf, hi, SEEK_CUR, SEEK_SET]
  · intro hw
    subst hw
    simp [TiFs.lseek, hf, hi, SEEK_END, SEEK_SET, SEEK_CUR]
  · intro h0 h1 h2
    simp [TiFs.lseek, hf, hi, SEEK_SET, SEEK_CUR, SEEK_END] at h0 h1 h2 ⊢
    simp [if_neg h0, if_neg h1, if_neg h2]
  · intro c
    simp [save_fh, Store.get_put]

/-- Claim C8, witness: `SEEK_CUR` with cursor 3 and offset 4 moves to 7 and
persists it; whence 9 is rejected. -/
theorem C8_witness :
    TiFs.lseek c8_store 2 1 4 SEEK_CUR =
      (.ok 7, save_fh c8_store 2 1 { cursor := 7 }) ∧
    (save_fh c8_store 2 1 { cursor := 7 }) (ScopedKey.handler 2 1) =
      some (Value.handler { cursor := 7 }) ∧
    TiFs.lseek c8_store 2 1 4 9 = (.error (.unknownWhence 9), c8_store) := by
  have h := C8_lseek_spec c8_store 2 1 4 SEEK_CUR { cursor := 3 }
    { sample_inode with size := 10, opened_fh := 1 } rfl rfl
  have h9 := C8_lseek_spec c8_store 2 1 4 9 { cursor := 3 }
    { sample_inode with size := 10, opened_fh := 1 } rfl rfl
  refine ⟨?_, h.2.2.2.2 { cursor := 7 }, h9.2.2.2.1 (by decide) (by decide)
    (by decide)⟩
  have hc := h.2.1 rfl
  simpa using hc

theorem resizeZero_length (l : List Nat) (n : Nat) :
    (resizeZero l n).length = n := by
  simp only [resizeZero, List.length_append, List.length_take,
    List.length_replicate]
  omega

theorem read_inline_data_length (rb : Bool) (bs now : Nat) (store : Store)
    (inode : Inode) (start size : Nat) :
    (read_inline_data rb bs now store inode start size).1.length = size := by
  simp only [read_inline_data, List.length_append, List.length_take,
    List.length_replicate]
  omega

/-- Concrete inode for claim C7: 6 inline bytes. -/
def c7_inode : Inode :=
  { sample_inode with size := 6, inline_data := some [1, 2, 3, 4, 5, 6] }

/-- Concrete state for claim C7. -/
def c7_store : Store :=
  Store.empty.put (ScopedKey.inode 2) (Value.inode c7_inode)

/-- Claim C7: `read_data` (transaction.rs:337-403) returns the empty byte
vector whenever the start offset is at least the inode's size, and otherwise
never returns more than `size - start` bytes: the requested length is clamped
to the remaining file length. -/
theorem C7_read_data_bounds (rb : Bool) (bs now : Nat) (store : Store)
    (ino start : Nat) (chunk : Option Nat) (inode : Inode) (v : List Nat)
    (s' : Store) (hi : read_inode store ino = .ok inode)
    (hr : read_data rb bs now store ino start chunk = (.ok v, s')) :
    (inode.size ≤ start → v = []) ∧ v.length ≤ inode.size - start := by
  unfold read_data at hr
  rw [hi] at hr
  dsimp only at hr
  by_cases hbig : start ≥ inode.size
  · rw [if_pos hbig] at hr
    simp only [Prod.mk.injEq, Except.ok.injEq] at hr
    exact ⟨fun _ => hr.1.symm, by simp [← hr.1]⟩
  · rw [if_neg hbig] at hr
    refine And.intro (fun hle => absurd hle hbig) ?_
    cases hinl : inode.inline_data with
    | some d =>
      rw [hinl] at hr
      dsimp only at hr
      simp only [Prod.mk.injEq, Except.ok.injEq] at hr
      rw [← hr.1, read_inline_data_length]
      omega
    | none =>
      rw [hinl] at hr
      dsimp only at hr
      simp only [Prod.mk.injEq, Except.ok.injEq] at hr
      rw [← hr.1, resizeZero_length]
      omega

/-- Claim C7, witness: reading 100 bytes at offset 2 of the 6-byte file
yields the 4 remaining bytes (at most `6 - 2`), and reading at offset 7
yields nothing. -/
theorem C7_witness :
    (read_data true 4 0 c7_store 2 2 (some 100)).1 = .ok [3, 4, 5, 6] ∧
    [3, 4, 5, 6].length ≤ 6 - 2 ∧
    read_data true 4 0 c7_store 2 7 none = (.ok [], c7_store) := by
  have hr2 : read_data true 4 0 c7_store 2 2 (some 100) =
      (.ok [3, 4, 5, 6], (read_data true 4 0 c7_store 2 2 (some 100)).2) :=
    rfl
  have h2 := C7_read_data_bounds true 4 0 c7_store 2 2 (some 100) c7_inode
    [3, 4, 5, 6] _ (by rfl) hr2
  have hr7 : read_data true 4 0 c7_store 2 7 none = (.ok [], c7_store) := rfl
  have h7 := C7_read_data_bounds true 4 0 c7_store 2 7 none c7_inode [] _
    (by rfl) hr7
  exact ⟨by rw [hr2], h2.2, hr7⟩

/-- Concrete state for claim C3: a fresh empty regular file, inode 2,
block size 4. -/
def c3_store0 : Store :=
  Store.empty.put (ScopedKey.inode 2) (Value.inode sample_inode)

/-- After writing bytes `[1,1,1,1]` at offsets `[8,12)` (block 2). -/
def c3_store1 : Store := (write_data true 4 0 c3_store0 2 8 [1, 1, 1, 1]).2

/-- After also writing `[2,2,2,2,3,3,3,3]` at offsets `[16,24)`
(blocks 4 and 5). -/
def c3_store2 : Store :=
  (write_data true 4 0 c3_store1 2 16 [2, 2, 2, 2, 3, 3, 3, 3]).2

/-- Claim C3: evaluating `read_data` (transaction.rs:337-403) at the failing
input.  After writing `[8,12)` and `[16,24)` with a one-block hole at
`[12,16)`, the blocks 2, 4 and 5 are stored as written, but reading `[8,24)`
returns zeros in place of block 5's bytes: the hole-filling arithmetic
`(start_block + i .. key)` inserts an extra zero block before each present
block that follows a hole, shifting later blocks out of their positional
slots.  The claim (write the two ranges, read across, get the written bytes
with zeros only in the hole) is what the spec demands; the code returns the
last conjunct's left-hand side instead of the right-hand side. -/
theorem C3_sparse_read_misassembled :
    c3_store2 (ScopedKey.block 2 2) = some (Value.bytes [1, 1, 1, 1]) ∧
    c3_store2 (ScopedKey.block 2 3) = none ∧
    c3_store2 (ScopedKey.block 2 4) = some (Value.bytes [2, 2, 2, 2]) ∧
    c3_store2 (ScopedKey.block 2 5) = some (Value.bytes [3, 3, 3, 3]) ∧
    (read_data true 4 0 c3_store2 2 8 (some 16)).1 =
      .ok [1, 1, 1, 1, 0, 0, 0, 0, 2, 2, 2, 2, 0, 0, 0, 0] ∧
    [1, 1, 1, 1, 0, 0, 0, 0, 2, 2, 2, 2, 0, 0, 0, 0] ≠
      [1, 1, 1, 1, 0, 0, 0, 0, 2, 2, 2, 2, 3, 3, 3, 3] := by
  refine ⟨rfl, rfl, rfl, rfl, rfl, by decide⟩

theorem write_blocks_get_other (bs ino : Nat) (l : List (List Nat)) :
    ∀ (bi : Nat) (store : Store) (k : ScopedKey),
      (∀ j, bi < j → k ≠ ScopedKey.block ino j) →
      write_blocks bs ino bi store l k = store k := by
  induction l with
  | nil => intro bi store k _; rfl
  | cons cur rest ih =>
    intro bi store k hk
    have hne : k ≠ ScopedKey.block ino (bi + 1) := hk (bi + 1) (by omega)
    simp only [write_blocks]
    rw [ih (bi + 1) _ k (fun j hj => hk j (by omega))]
    simp [Store.get_put, if_neg hne]

/-- Concrete state for claim C1's counterexample: a fresh empty regular file,
inode 2, block size 64 (so the spec's threshold would be 64/16 = 4). -/
def c1_store : Store :=
  Store.empty.put (ScopedKey.inode 2) (Value.inode sample_inode)

/-- The inode produced by writing 10 bytes into the fresh file. -/
def c1_after : Inode :=
  { sample_inode with
    size := 10, blocks := 1, inline_data := some (List.replicate 10 7) }

/-- Claim C1, counterexample: with block size 64, a write of 10 bytes at
offset 0 produces `size = 10 > 4 = block_size/16`, yet `write_data`
(transaction.rs:421-478) keeps the bytes inline: its promotion test is
`target > self.block_size`, not the `inline_data_threshold`.  This refutes
both "inline_data present only when size ≤ block_size/16" and "a write whose
resulting size exceeds block_size/16 clears inline_data". -/
theorem C1_counterexample :
    (write_data true 64 0 c1_store 2 0 (List.replicate 10 7)).2
        (ScopedKey.inode 2) = some (Value.inode c1_after) ∧
    c1_after.inline_data = some (List.replicate 10 7) ∧
    c1_after.size = 10 ∧ inline_data_threshold 64 = 4 ∧
    (write_data true 64 0 c1_store 2 0 (List.replicate 10 7)).2
        (ScopedKey.block 2 0) = none := by
  refine ⟨rfl, rfl, rfl, rfl, rfl⟩

/-- Claim C1, amended: the promotion threshold in `write_data` is
`block_size`, not `block_size/16`.  For every write on an inode holding
inline data whose end `start + len` exceeds `block_size`, after `write_data`
completes the saved inode has no `inline_data`, and block 0 holds the former
inline bytes zero-padded to `block_size`, overlaid with whatever part of the
newly written data falls in block 0 (none, when the write starts at or past
`block_size`). -/
theorem C1_promotion (rb : Bool) (bs now : Nat) (store : Store)
    (ino start : Nat) (data d : List Nat) (inode : Inode) (hbs : 0 < bs)
    (hi : read_inode store ino = .ok inode) (hino : inode.ino = ino)
    (hinl : inode.inline_data = some d) (hn : inode.nlink ≠ 0)
    (hbig : bs < start + data.length) :
    (write_data rb bs now store ino start data).1 = .ok data.length ∧
    (∃ fin : Inode,
      (write_data rb bs now store ino start data).2 (ScopedKey.inode ino) =
        some (Value.inode fin) ∧ fin.inline_data = none) ∧
    (write_data rb bs now store ino start data).2 (ScopedKey.block ino 0) =
      some (Value.bytes
        (if start < bs then
          splice (resizeZero d bs) start (data.take (bs - start))
         else resizeZero d bs)) := by
  unfold write_data
  rw [hi]
  dsimp only
  rw [if_neg (fun hc => absurd hc.2 (by omega))]
  rw [if_pos (show inode.inline_data.isSome = true ∧ bs < start + data.length
    from ⟨by simp [hinl], hbig⟩)]
  unfold transfer_inline_data_to_block
  rw [hinl]
  dsimp only [Option.getD_some]
  rw [hino]
  refine ⟨rfl, ?_, ?_⟩
  · refine ⟨Inode.set_size
      { inode with
        ino := ino, atime := now, mtime := now, ctime := now,
        inline_data := none }
      (inode.size ⊔ (start + data.length)) bs, ?_, ?_⟩
    · unfold save_inode
      rw [if_neg (by exact fun hc => hn hc.1)]
      rw [Store.get_put]
      simp [Inode.set_size]
    · rfl
  · unfold save_inode
    rw [if_neg (by exact fun hc => hn hc.1)]
    rw [Store.get_put]
    rw [if_neg (by exact fun hk => ScopedKey.noConfusion hk)]
    rw [write_blocks_get_other bs ino _ (start / bs) _ (ScopedKey.block ino 0)
      (by
        intro j hj hk
        cases hk
        exact absurd hj (Nat.not_lt_zero _))]
    by_cases hstart : start < bs
    · have hdiv : start / bs = 0 := Nat.div_eq_of_lt hstart
      have hmod : start % bs = start := Nat.mod_eq_of_lt hstart
      rw [hdiv, hmod]
      have hk : min (bs - start) data.length = bs - start := by omega
      rw [hk]
      rw [if_pos hstart]
      simp only [Store.get_put, if_pos rfl, get_block]
      rfl
    · have hdiv : 0 < start / bs := Nat.div_pos (by omega) hbs
      rw [if_neg hstart]
      rw [Store.get_put]
      rw [if_neg (by
        simp only [ScopedKey.block.injEq, not_and]
        intro _
        omega)]
      rw [Store.get_put]
      rw [if_pos rfl]

/-- Concrete state for claim C1's witness: inode 2 holds 2 inline bytes
`[7,7]`, block size 4. -/
def c1w_inode : Inode :=
  { sample_inode with size := 2, blocks := 1, inline_data := some [7, 7] }

/-- Store holding `c1w_inode`. -/
def c1w_store : Store :=
  Store.empty.put (ScopedKey.inode 2) (Value.inode c1w_inode)

/-- Claim C1, witness: writing `[9,9]` at offset 3 (end 5 > block size 4)
promotes the inline bytes `[7,7]` — block 0 becomes `[7,7,0,9]` (the padded
former inline bytes overlaid with the first written byte) and the saved inode
has no inline data. -/
theorem C1_witness :
    (write_data true 4 0 c1w_store 2 3 [9, 9]).1 = .ok 2 ∧
    (write_data true 4 0 c1w_store 2 3 [9, 9]).2 (ScopedKey.block 2 0) =
      some (Value.bytes [7, 7, 0, 9]) := by
  have h := C1_promotion true 4 0 c1w_store 2 3 [9, 9] [7, 7] c1w_inode
    (by decide) (by rfl) rfl rfl (by decide) (by decide)
  refine ⟨h.1, ?_⟩
  rw [h.2.2]
  rfl

end Tifs
